import Mathlib

/-
  Verification of the README-generator core (tools.py / agents.py / app.py).

  Python strings are modelled as `List Char` where their character structure
  matters (URL parsing, file contents) and as Lean `String` where they are
  opaque payloads (names, prompt text).  Remote calls that may raise
  `GithubException` are modelled with `Option` results (`none` = the call
  raised), following the collaborator contract of spec section 6.
-/

set_option maxHeartbeats 1600000

namespace ReadmeGen

/- ### Python string helpers (str.strip, str.rstrip("/"), endswith) -/

def pyIsSpace (c : Char) : Bool :=
  c == ' ' || c == '\t' || c == '\n' || c == '\r' || c == '\x0b' || c == '\x0c'

def pyStrip (l : List Char) : List Char :=
  ((l.dropWhile pyIsSpace).reverse.dropWhile pyIsSpace).reverse

def rstripSlashes (l : List Char) : List Char :=
  (l.reverse.dropWhile (· == '/')).reverse

/- ### tools.parse_repo_url

   The two regexes of the source are embedded directly:
     re.match(r"(?:https?://)?github\.com/([^/]+/[^/]+)", url)
     re.match(r"^([^/]+/[^/]+)$", url)
   `[^/]+` is greedy and stops exactly at the next '/' (or the end), so each
   regex reduces to takeWhile/dropWhile computations; `re.match` anchors at
   the start only.  Python treats `$` as end-of-string or just before one
   trailing newline; after greedy matching the two cases coincide (see
   matchOwnerRepo below, which accepts any slash-free remainder). -/

def afterScheme (l : List Char) : List Char :=
  if "https://".toList.isPrefixOf l then l.drop 8
  else if "http://".toList.isPrefixOf l then l.drop 7
  else l

/-- The `([^/]+/[^/]+)` capture after the host: the first `[^/]+` greedily
takes the maximal slash-free run, then a literal `/`, then the second
greedy `[^/]+`; anything after the capture is ignored (`re.match`). -/
def matchOwnerPart (r2 : List Char) : Option (List Char) :=
  let owner := r2.takeWhile (· != '/')
  let rest := r2.dropWhile (· != '/')
  match owner, rest with
  | [], _ => none
  | _ :: _, '/' :: rest2 =>
    let nm := rest2.takeWhile (· != '/')
    if nm.isEmpty then none else some (owner ++ '/' :: nm)
  | _ :: _, _ => none

def matchGithub (l : List Char) : Option (List Char) :=
  let r := afterScheme l
  if "github.com/".toList.isPrefixOf r then
    matchOwnerPart (r.drop 11)
  else
    -- regex backtracking: if a scheme prefix was consumed but "github.com/"
    -- does not follow, retrying without the optional scheme also fails,
    -- because the string then starts with "http", not "github.com/".
    none

def matchOwnerRepo (l : List Char) : Option (List Char) :=
  let owner := l.takeWhile (· != '/')
  let rest := l.dropWhile (· != '/')
  match owner, rest with
  | [], _ => none
  | _ :: _, '/' :: rest2 =>
    if rest2.isEmpty then none
    else if rest2.any (· == '/') then none
    else some (owner ++ '/' :: rest2)
  | _ :: _, _ => none

def preprocess (url : List Char) : List Char :=
  let u0 := rstripSlashes (pyStrip url)
  if ".git".toList.isSuffixOf u0 then u0.take (u0.length - 4) else u0

/-- Errors of the pipeline.  `invalidReference` and `repositoryAccess` model
the two `ValueError`s of tools.py; `uncaughtException` models an exception
that propagates out of `fetch_repo_data` without being converted (there is
no try/except around `repo.get_topics()` / `repo.get_languages()`). -/
inductive FetchError where
  | invalidReference (msg : List Char)
  | repositoryAccess (msg : List Char)
  | uncaughtException (msg : String)
deriving Repr, DecidableEq

def parse_repo_url (url : List Char) : Except (List Char) (List Char) :=
  let u := preprocess url
  match matchGithub u with
  | some g => .ok g
  | none =>
    match matchOwnerRepo u with
    | some g => .ok g
    | none => .error ("Invalid GitHub URL: ".toList ++ u ++
        ". Expected format: https://github.com/owner/repo".toList)

example : parse_repo_url "https://github.com/o/r".toList = .ok "o/r".toList := rfl
example : parse_repo_url "https://github.com/o/r.git".toList = .ok "o/r".toList := rfl
example : parse_repo_url "github.com/o/r".toList = .ok "o/r".toList := rfl
example : parse_repo_url " o/r/ ".toList = .ok "o/r".toList := rfl
example : parse_repo_url "http://github.com/o/r/".toList = .ok "o/r".toList := rfl
example : (parse_repo_url "nonsense".toList).isOk = false := by decide
example : (parse_repo_url "a/b/c".toList).isOk = false := by decide
example : (parse_repo_url "https://gitlab.com/a/b".toList).isOk = false := by decide
example : (parse_repo_url "".toList).isOk = false := by decide

/- ### Remote repository client (collaborator contract of spec section 6)

   `listDir` models `repo.get_contents(path)` used on a directory path
   (PyGithub returns a list of entries; `none` = `GithubException` raised).
   `getFile` models `repo.get_contents(path)` used on a file path (PyGithub
   returns a single content object; `none` = any exception raised, which
   `_read_file_content` catches).  The scalar fields were loaded with the
   handle; `topics` / `languages` model the separate API calls
   `repo.get_topics()` / `repo.get_languages()`, each of which can raise
   (`none`) — tools.py performs those calls with no surrounding try/except. -/

structure ContentItem where
  name : String
  type : String
  path : String

structure ContentFile where
  encoding : String
  content : String

structure RepoHandle where
  full_name : String
  name : String
  description : Option String
  homepage : Option String
  stargazers_count : Int
  forks_count : Int
  open_issues_count : Int
  subscribers_count : Int
  default_branch : String
  license : Option String
  topics : Option (List String)
  languages : Option (List (String × Int))
  created_at : String
  updated_at : String
  fork : Bool
  html_url : String
  listDir : String → Option (List ContentItem)
  getFile : String → Option ContentFile

/-- The GitHub client: token and full name to repository handle; `none`
models `GithubException` from `g.get_repo(full_name)`. -/
structure Github where
  get_repo : String → List Char → Option RepoHandle

/- ### Constants of tools.py -/

def IMPORTANT_FILES : List String :=
  ["setup.py", "setup.cfg", "pyproject.toml", "package.json", "Cargo.toml",
   "go.mod", "pom.xml", "build.gradle", "Makefile", "Dockerfile",
   "docker-compose.yml", "docker-compose.yaml", ".github/workflows",
   "LICENSE", "CONTRIBUTING.md"]

def MAX_FILE_CONTENT_LENGTH : Nat := 3000

def MAX_TREE_DEPTH : Nat := 3

def README_CANDIDATES : List String :=
  ["README.md", "readme.md", "README.rst", "README.txt", "README"]

/- ### tools._build_tree -/

inductive TreeNode where
  | mk (name : String) (type : String) (path : String)
       (children : Option (List TreeNode))

def TreeNode.name : TreeNode → String
  | .mk n _ _ _ => n

def TreeNode.type : TreeNode → String
  | .mk _ t _ _ => t

def TreeNode.path : TreeNode → String
  | .mk _ _ p _ => p

def TreeNode.children : TreeNode → Option (List TreeNode)
  | .mk _ _ _ c => c

def build_tree (repo : RepoHandle) (path : String) (depth : Nat) : List TreeNode :=
  if MAX_TREE_DEPTH ≤ depth then []
  else
    match repo.listDir path with
    | none => []
    | some contents =>
      contents.map fun item =>
        TreeNode.mk item.name (if item.type == "dir" then "dir" else "file")
          item.path
          (if h : item.type == "dir" ∧ depth < MAX_TREE_DEPTH - 1 then
            some (build_tree repo item.path (depth + 1))
          else none)
termination_by MAX_TREE_DEPTH - depth
decreasing_by simp only [MAX_TREE_DEPTH] at *; omega

/-- Unfolding equation of `build_tree` (the definition is compiled by
well-founded recursion, so this equation is applied by `rw`/`simp`). -/
lemma build_tree_eq (repo : RepoHandle) (path : String) (depth : Nat) :
    build_tree repo path depth =
      if MAX_TREE_DEPTH ≤ depth then []
      else
        match repo.listDir path with
        | none => []
        | some contents =>
          contents.map fun item =>
            TreeNode.mk item.name
              (if item.type == "dir" then "dir" else "file") item.path
              (if item.type == "dir" ∧ depth < MAX_TREE_DEPTH - 1 then
                some (build_tree repo item.path (depth + 1))
              else none) := by
  conv_lhs => unfold build_tree
  simp only [dite_eq_ite]

/- ### tools._format_tree -/

def format_items : List TreeNode → String → List String
  | [], _ => []
  | (TreeNode.mk nm ty _ co) :: ts, pre =>
    let isLast := ts.isEmpty
    let connector := if isLast then "└── " else "├── "
    let icon := if ty == "dir" then "📁 " else "📄 "
    let line := pre ++ connector ++ icon ++ nm
    let childBlock :=
      match co with
      | some cs =>
        let ext := if isLast then "    " else "│   "
        [String.intercalate "\n" (format_items cs (pre ++ ext))]
      | none => []
    (line :: childBlock) ++ format_items ts pre

def format_tree (tree : List TreeNode) (pre : String) : String :=
  String.intercalate "\n" (format_items tree pre)

/- ### tools._read_file_content

   `decode` models `base64.b64decode(payload).decode("utf-8", errors="replace")`:
   the base64 library is an external collaborator; `none` models a raised
   `binascii.Error` (caught by the bare `except` in the source).  Text
   decoding with errors="replace" never raises. -/

def read_file_content (decode : String → Option (List Char))
    (repo : RepoHandle) (file_path : String) : Option (List Char) :=
  match repo.getFile file_path with
  | none => none
  | some content_file =>
    if content_file.encoding == "base64" && content_file.content != "" then
      match decode content_file.content with
      | none => none
      | some decoded => some (decoded.take MAX_FILE_CONTENT_LENGTH)
    else none

/- ### tools.fetch_repo_data -/

/-- Python `x or default` on an optional string: `None` and `""` are falsy. -/
def pyOr (s : Option String) (d : String) : String :=
  match s with
  | none => d
  | some s => if s == "" then d else s

structure Metadata where
  full_name : String
  name : String
  description : String
  homepage : String
  stars : Int
  forks : Int
  open_issues : Int
  watchers : Int
  default_branch : String
  license : String
  topics : List String
  created_at : String
  updated_at : String
  is_fork : Bool
  html_url : String

structure Digest where
  metadata : Metadata
  languages : List (String × Int)
  file_tree : String
  important_files : List (String × List Char)
  existing_readme : Option (List Char)

def collect_important_files (decode : String → Option (List Char))
    (repo : RepoHandle) : List (String × List Char) :=
  IMPORTANT_FILES.foldl (fun acc fp =>
    match read_file_content decode repo fp with
    | some c => if c.isEmpty then acc else acc ++ [(fp, c)]
    | none => acc) []

def find_existing_readme (decode : String → Option (List Char))
    (repo : RepoHandle) : Option (List Char) :=
  README_CANDIDATES.findSome? fun nm =>
    match read_file_content decode repo nm with
    | some c => if c.isEmpty then none else some c
    | none => none

def fetch_repo_data (g : Github) (decode : String → Option (List Char))
    (repo_url : List Char) (github_token : String) : Except FetchError Digest :=
  match parse_repo_url repo_url with
  | .error m => .error (.invalidReference m)
  | .ok full_name =>
    match g.get_repo github_token full_name with
    | none => .error (.repositoryAccess
        ("Could not access repository ".toList ++ full_name))
    | some repo =>
      match repo.topics with
      | none => .error (.uncaughtException "GithubException from get_topics")
      | some tops =>
        match repo.languages with
        | none => .error (.uncaughtException "GithubException from get_languages")
        | some langs =>
          let md : Metadata :=
            { full_name := repo.full_name
              name := repo.name
              description := pyOr repo.description "No description provided"
              homepage := pyOr repo.homepage ""
              stars := repo.stargazers_count
              forks := repo.forks_count
              open_issues := repo.open_issues_count
              watchers := repo.subscribers_count
              default_branch := repo.default_branch
              license := (match repo.license with
                          | some l => l
                          | none => "Not specified")
              topics := tops
              created_at := repo.created_at
              updated_at := repo.updated_at
              is_fork := repo.fork
              html_url := repo.html_url }
          .ok
            { metadata := md
              languages := langs
              file_tree := format_tree (build_tree repo "" 0) ""
              important_files := collect_important_files decode repo
              existing_readme := find_existing_readme decode repo }

/- ### agents.py — style table -/

structure StyleProfile where
  name : String
  description : String
  instructions : String
deriving Repr, DecidableEq

def minimalStyle : StyleProfile :=
  { name := "Minimal"
    description := "Short and focused. Only essential sections: title, description, install, usage."
    instructions := "\n## Style: MINIMAL\n- Keep it SHORT — aim for under 80 lines.\n- Only include: Title, one-line Description, Quick Install, Basic Usage, License.\n- No badges, no project structure tree, no contributing section.\n- Prefer bullet points over paragraphs.\n- Skip acknowledgments and extras.\n" }

def detailedStyle : StyleProfile :=
  { name := "Detailed"
    description := "Comprehensive and professional. All standard sections included."
    instructions := "\n## Style: DETAILED\n- Include ALL standard sections:\n  1. Title & Badges (shields.io)\n  2. Description (compelling, 2–3 sentences)\n  3. Features (bullet list)\n  4. Tech Stack\n  5. Getting Started (prerequisites + installation)\n  6. Usage (with code examples)\n  7. Project Structure (directory tree)\n  8. Contributing guidelines\n  9. License\n  10. Acknowledgments (if applicable)\n- Be thorough but concise in each section.\n" }

def awesomeStyle : StyleProfile :=
  { name := "Awesome"
    description := "Eye-catching with emojis, banners, and visual flair. Inspired by awesome-readme."
    instructions := "\n## Style: AWESOME (Eye-catching)\n- Use emojis liberally in headers and bullets (🚀 ✨ 📦 🛠️ 📖 🤝 📄 etc.)\n- Start with a centered banner section: centered H1, tagline, and badge row.\n- Include a Table of Contents with anchor links.\n- Use HTML where helpful (centered text, badge rows, collapsible sections).\n- Add a \"Screenshots\" or \"Demo\" section placeholder.\n- Include ALL sections from the \"detailed\" style PLUS:\n  - Table of Contents\n  - Demo/Screenshots section\n  - Roadmap section (infer from open issues/TODOs)\n  - Show some personality and energy in the writing.\n- Make it look like a top GitHub trending project README.\n" }

def STYLES : List (String × StyleProfile) :=
  [("minimal", minimalStyle), ("detailed", detailedStyle), ("awesome", awesomeStyle)]

/-- `STYLES.get(style, STYLES["detailed"])` of the source. -/
def STYLES_get (key : String) : StyleProfile :=
  match STYLES.find? (fun p => p.1 == key) with
  | some p => p.2
  | none => detailedStyle

/- ### agents.py — prompt templates, split at the format placeholders -/

def SYSTEM_PROMPT_PRE : String :=
  "You are an expert technical writer who creates professional, comprehensive README.md files for open-source projects.\n\nYou will be given structured data about a GitHub repository (metadata, languages, file tree, config files, and an existing README if available). Use ALL of this information to generate a polished, production-quality README.\n\n"

def SYSTEM_PROMPT_POST : String :=
  "\n\n## Rules\n- Be concise but thorough.\n- Write in **Markdown** format.\n- Use code blocks for commands.\n- Do NOT invent features or dependencies that are not evident in the data.\n- If an existing README is provided, improve upon it rather than starting from scratch.\n- Output ONLY the README markdown — no preamble, no explanation.\n"

def USER_TEMPLATE_1 : String := "Here is the repository data:\n\n### Metadata\n```json\n"

def USER_TEMPLATE_2 : String := "\n```\n\n### Languages\n```json\n"

def USER_TEMPLATE_3 : String := "\n```\n\n### File Tree\n```\n"

def USER_TEMPLATE_4 : String := "\n```\n\n### Important Config Files\n"

def USER_TEMPLATE_5 : String := "\n\n### Existing README\n"

def USER_TEMPLATE_6 : String :=
  "\n\n---\nGenerate a professional README.md for this repository.\n"

def ANALYZE_SYSTEM_PROMPT : String :=
  "You are a README quality analyst. You evaluate GitHub repository README files and provide a structured quality assessment.\n\nAnalyze the given README against these criteria:\n1. **Clarity** (0-20): Is the project description clear and compelling?\n2. **Completeness** (0-20): Are all important sections present?\n3. **Installation** (0-20): Are setup/install instructions clear and complete?\n4. **Usage** (0-20): Are usage examples provided and helpful?\n5. **Presentation** (0-20): Good formatting, badges, structure?\n\nExpected sections: Title, Description, Installation, Usage, Features, Contributing, License, Tech Stack, Project Structure.\n\nYou MUST respond with valid JSON only — no markdown, no code fences, no explanation. Use this exact structure:\n\x7b\"score\": <0-100>, \"summary\": \"<brief analysis>\", \"strengths\": [\"<strength1>\", ...], \"improvements\": [\"<suggestion1>\", ...], \"missing_sections\": [\"<section1>\", ...]\x7d\n"

def ANALYZE_USER_1 : String := "Repository: "

def ANALYZE_USER_2 : String := "\n\nREADME content:\n```\n"

def ANALYZE_USER_3 : String := "\n```\n\nRepository metadata:\n```json\n"

def ANALYZE_USER_4 : String := "\n```\n\nAnalyze this README and return JSON.\n"

/- ### agents.py — prompt assembly -/

/-- Renderings of `json.dumps(..., indent=2)`: the json library is an
external collaborator, so the two dump functions are abstract parameters. -/
structure JsonDumps where
  dumpsMeta : Metadata → String
  dumpsLangs : List (String × Int) → String

def format_important_files (files : List (String × List Char)) : String :=
  if files.isEmpty then "_No config files found._"
  else String.intercalate "\n\n" (files.map fun pc =>
    "**" ++ pc.1 ++ "**\n```\n" ++ String.mk pc.2 ++ "\n```")

def custom_instructions_block (custom_instructions : String) : String :=
  if (pyStrip custom_instructions.toList).isEmpty then ""
  else "\n## Custom Instructions from User\nFollow these additional instructions carefully:\n"
    ++ custom_instructions ++ "\n"

/-- The system prompt built by `build_chain`:
`SYSTEM_PROMPT.format(style_instructions=..., custom_instructions_block=...)`. -/
def build_system_prompt (style : String) (custom_instructions : String) : String :=
  SYSTEM_PROMPT_PRE ++ (STYLES_get style).instructions ++ "\n\n"
    ++ custom_instructions_block custom_instructions ++ SYSTEM_PROMPT_POST

/-- The human message rendered when `generate_readme` invokes the chain:
`USER_TEMPLATE` with the digest fields substituted. -/
def generate_user_prompt (dumps : JsonDumps) (d : Digest) : String :=
  USER_TEMPLATE_1 ++ dumps.dumpsMeta d.metadata
    ++ USER_TEMPLATE_2 ++ dumps.dumpsLangs d.languages
    ++ USER_TEMPLATE_3
    ++ (if d.file_tree == "" then "No file tree available" else d.file_tree)
    ++ USER_TEMPLATE_4 ++ format_important_files d.important_files
    ++ USER_TEMPLATE_5
    ++ (match d.existing_readme with
        | none => "_No existing README found._"
        | some r => if r.isEmpty then "_No existing README found._" else String.mk r)
    ++ USER_TEMPLATE_6

/-- The system/user prompt pair of the generation chain for one digest. -/
def generate_prompt_pair (dumps : JsonDumps) (d : Digest)
    (style : String) (custom_instructions : String) : String × String :=
  (build_system_prompt style custom_instructions, generate_user_prompt dumps d)

def analyze_user_prompt (dumps : JsonDumps) (d : Digest) : String :=
  ANALYZE_USER_1 ++ d.metadata.full_name
    ++ ANALYZE_USER_2
    ++ (match d.existing_readme with
        | none => "_No README found._"
        | some r => if r.isEmpty then "_No README found._" else String.mk r)
    ++ ANALYZE_USER_3 ++ dumps.dumpsMeta d.metadata
    ++ ANALYZE_USER_4

/- ### agents.analyze_readme — completion plus strict JSON parse -/

/-- JSON values (`json.loads` results).  Numbers are modelled as integers;
the rubric score is an integer and no claim depends on fractional values. -/
inductive Json where
  | null
  | bool (b : Bool)
  | num (n : Int)
  | str (s : String)
  | arr (elems : List Json)
  | obj (fields : List (String × Json))

/-- Lookup in a parsed JSON object: `json.loads` keeps the last value of a
duplicated key, and `dict.get` returns it. -/
def jsonObjGet (fields : List (String × Json)) (key : String) : Option Json :=
  (fields.reverse.find? (fun p => p.1 == key)).map (·.2)

inductive AgentError where
  | completionFailure (msg : String)
  | malformedResponse (msg : String)

/-- `analyze_readme`: send the rubric prompt pair to the completion service
(`complete`; `.error` = transport failure), then parse the response strictly
as JSON (`parseJson`; `none` = `OutputParserException`). -/
def analyze_readme_run (complete : String → String → Except String String)
    (parseJson : String → Option Json) (dumps : JsonDumps) (d : Digest) :
    Except AgentError Json :=
  match complete ANALYZE_SYSTEM_PROMPT (analyze_user_prompt dumps d) with
  | .error m => .error (.completionFailure m)
  | .ok resp =>
    match parseJson resp with
    | none => .error (.malformedResponse resp)
    | some j => .ok j

/- ### app.py — the analyze endpoint -/

structure AnalyzeRequest where
  repo_url : List Char
  github_token : Option String

structure AnalyzeResponse where
  score : Int
  summary : String
  strengths : List String
  improvements : List String
  missing_sections : List String
  repo_name : String
deriving Repr, DecidableEq

structure HTTPError where
  status : Nat
  detail : String
deriving Repr, DecidableEq

def asInt : Json → Option Int
  | .num n => some n
  | _ => none

def asStr : Json → Option String
  | .str s => some s
  | _ => none

def asStrList : Json → Option (List String)
  | .arr xs => xs.mapM asStr
  | _ => none

/-- One `analysis.get(key, default)` followed by pydantic field validation:
a missing key yields the default, a present key must have the declared
shape (`none` = `ValidationError`, a 500 in the endpoint). -/
def getOrDefault {α : Type} (fields : List (String × Json)) (key : String)
    (dflt : α) (coerce : Json → Option α) : Option α :=
  match jsonObjGet fields key with
  | none => some dflt
  | some j => coerce j

/-- Construction of `AnalyzeResponse(score=analysis.get("score", 0), ...)`. -/
def buildAnalyzeResponse (fields : List (String × Json)) (repo_name : String) :
    Option AnalyzeResponse := do
  let score ← getOrDefault fields "score" 0 asInt
  let summary ← getOrDefault fields "summary" "" asStr
  let strengths ← getOrDefault fields "strengths" [] asStrList
  let improvements ← getOrDefault fields "improvements" [] asStrList
  let missing_sections ← getOrDefault fields "missing_sections" [] asStrList
  pure { score := score, summary := summary, strengths := strengths,
         improvements := improvements, missing_sections := missing_sections,
         repo_name := repo_name }

/-- Truthiness of `repo_data.get("existing_readme")`. -/
def pyTruthy (o : Option (List Char)) : Bool :=
  match o with
  | none => false
  | some l => !l.isEmpty

/-- The POST /api/analyze handler.  `ValueError` maps to status 400, any
other exception to status 500 with the "Failed to analyze README: " detail. -/
def analyze_endpoint (g : Github) (decode : String → Option (List Char))
    (dumps : JsonDumps) (complete : String → String → Except String String)
    (parseJson : String → Option Json) (settings_token : String)
    (req : AnalyzeRequest) : Except HTTPError AnalyzeResponse :=
  let token := pyOr req.github_token settings_token
  match fetch_repo_data g decode req.repo_url token with
  | .error (.invalidReference m) => .error ⟨400, String.mk m⟩
  | .error (.repositoryAccess m) => .error ⟨400, String.mk m⟩
  | .error (.uncaughtException m) =>
      .error ⟨500, "Failed to analyze README: " ++ m⟩
  | .ok repo_data =>
    let repo_name := repo_data.metadata.full_name
    if pyTruthy repo_data.existing_readme = false then
      .error ⟨400, "No existing README found in " ++ repo_name
                     ++ ". Nothing to analyze."⟩
    else
      match analyze_readme_run complete parseJson dumps repo_data with
      | .error (.completionFailure m) =>
          .error ⟨500, "Failed to analyze README: " ++ m⟩
      | .error (.malformedResponse m) =>
          .error ⟨500, "Failed to analyze README: Invalid json output: " ++ m⟩
      | .ok (.obj fields) =>
        match buildAnalyzeResponse fields repo_name with
        | some r => .ok r
        | none => .error ⟨500, "Failed to analyze README: validation error"⟩
      | .ok _ =>
          -- analysis.get(...) on a non-dict raises AttributeError, a 500
          .error ⟨500, "Failed to analyze README: AttributeError"⟩

/- ### Verification-side measure for the tree invariant (claim C3)

   `forestOK k l = true` states, for a forest whose nodes sit at a level
   with `k` levels still allowed (the root call allows `MAX_TREE_DEPTH`):
   every node carrying a `children` field has kind `"dir"` and at least two
   levels remaining (so nodes at the deepest allowed level never carry
   `children`, and no node appears below level `k`), recursively. -/

def forestOK : Nat → List TreeNode → Bool
  | _, [] => true
  | k, (TreeNode.mk _ ty _ co) :: ts =>
    (match co, k with
     | none, _ => true
     | some _, 0 => false
     | some _, 1 => false
     | some cs, j + 2 => (ty == "dir") && forestOK (j + 1) cs)
    && forestOK k ts

/- ### Concrete clients used by witnesses -/

def wDecode : String → Option (List Char) :=
  fun s => if s == "aGk=" then some ['h', 'i'] else none

def emptyRepo : RepoHandle :=
  { full_name := "o/r", name := "r", description := none, homepage := none,
    stargazers_count := 0, forks_count := 0, open_issues_count := 0,
    subscribers_count := 0, default_branch := "main", license := none,
    topics := some [], languages := some [], created_at := "",
    updated_at := "", fork := false, html_url := "",
    listDir := fun _ => none, getFile := fun _ => none }

def readmeRepo : RepoHandle :=
  { emptyRepo with getFile := fun p =>
      if p == "README.md" then some { encoding := "base64", content := "aGk=" }
      else none }

def topicsFailRepo : RepoHandle := { emptyRepo with topics := none }

def wGithub (r : RepoHandle) : Github :=
  { get_repo := fun _ fn => if fn = "o/r".toList then some r else none }

def wDumps : JsonDumps := { dumpsMeta := fun _ => "", dumpsLangs := fun _ => "" }

def wMetadata : Metadata :=
  { full_name := "o/r", name := "r", description := "No description provided",
    homepage := "", stars := 0, forks := 0, open_issues := 0, watchers := 0,
    default_branch := "main", license := "Not specified", topics := [],
    created_at := "", updated_at := "", is_fork := false, html_url := "" }

def emptyDigest : Digest :=
  { metadata := wMetadata, languages := [], file_tree := "",
    important_files := [], existing_readme := none }

def readmeDigest : Digest := { emptyDigest with existing_readme := some ['h', 'i'] }

/- ### Helper lemmas -/

lemma build_tree_stop (repo : RepoHandle) (path : String) (depth : Nat)
    (h : MAX_TREE_DEPTH ≤ depth) : build_tree repo path depth = [] := by
  rw [build_tree_eq, if_pos h]

lemma build_tree_listDir_none (repo : RepoHandle)
    (hfail : ∀ p, repo.listDir p = none) :
    ∀ path depth, build_tree repo path depth = [] := by
  intro path depth
  rw [build_tree_eq]
  by_cases h : MAX_TREE_DEPTH ≤ depth
  · rw [if_pos h]
  · rw [if_neg h, hfail path]

lemma format_tree_nil (pre : String) : format_tree [] pre = "" := by
  simp [format_tree, format_items]
  rfl

lemma fetch_empty_eval :
    fetch_repo_data (wGithub emptyRepo) wDecode "o/r".toList "" =
      .ok emptyDigest := by
  have hbt : build_tree emptyRepo "" 0 = [] :=
    build_tree_listDir_none emptyRepo (fun _ => rfl) "" 0
  unfold fetch_repo_data
  rw [show parse_repo_url "o/r".toList = .ok "o/r".toList from rfl]
  dsimp only
  rw [show (wGithub emptyRepo).get_repo "" "o/r".toList = some emptyRepo from rfl]
  dsimp only
  rw [show emptyRepo.topics = some [] from rfl]
  dsimp only
  rw [show emptyRepo.languages = some [] from rfl]
  dsimp only
  rw [hbt, format_tree_nil]
  rfl

lemma fetch_readme_eval :
    fetch_repo_data (wGithub readmeRepo) wDecode "o/r".toList "" =
      .ok readmeDigest := by
  have hbt : build_tree readmeRepo "" 0 = [] :=
    build_tree_listDir_none readmeRepo (fun _ => rfl) "" 0
  unfold fetch_repo_data
  rw [show parse_repo_url "o/r".toList = .ok "o/r".toList from rfl]
  dsimp only
  rw [show (wGithub readmeRepo).get_repo "" "o/r".toList = some readmeRepo from rfl]
  dsimp only
  rw [show readmeRepo.topics = some [] from rfl]
  dsimp only
  rw [show readmeRepo.languages = some [] from rfl]
  dsimp only
  rw [hbt, format_tree_nil]
  rfl

lemma forestOK_intro (k : Nat) : ∀ l : List TreeNode,
    (∀ t ∈ l, t.children = none ∨
      ∃ cs j, t.children = some cs ∧ t.type = "dir" ∧ k = j + 2 ∧
        forestOK (j + 1) cs = true) →
    forestOK k l = true := by
  intro l
  induction l with
  | nil => intro _; simp [forestOK]
  | cons t ts ih =>
    intro h
    obtain ⟨nm, ty, p, co⟩ := t
    have ht := h _ (List.mem_cons_self _ _)
    have hts : forestOK k ts = true := ih fun t' ht' => h t' (List.mem_cons_of_mem _ ht')
    rcases ht with hnone | ⟨cs, j, hco, hty, hk, hcs⟩
    · simp only [TreeNode.children] at hnone
      subst hnone
      simp [forestOK, hts]
    · simp only [TreeNode.children] at hco
      simp only [TreeNode.type] at hty
      subst hco; subst hty; subst hk
      simp [forestOK, hts, hcs]

lemma tree_forestOK : ∀ (n depth : Nat) (repo : RepoHandle) (path : String),
    MAX_TREE_DEPTH - depth = n →
    forestOK n (build_tree repo path depth) = true := by
  intro n
  induction n with
  | zero =>
    intro depth repo path h
    have hd : MAX_TREE_DEPTH ≤ depth := by omega
    rw [build_tree_stop repo path depth hd]
    simp [forestOK]
  | succ k ih =>
    intro depth repo path h
    have hlt : ¬ MAX_TREE_DEPTH ≤ depth := by omega
    rw [build_tree_eq, if_neg hlt]
    cases hld : repo.listDir path with
    | none => simp [forestOK]
    | some contents =>
      dsimp only
      apply forestOK_intro
      intro t ht
      rw [List.mem_map] at ht
      obtain ⟨item, _, rfl⟩ := ht
      by_cases hc : item.type == "dir" ∧ depth < MAX_TREE_DEPTH - 1
      · right
        refine ⟨build_tree repo item.path (depth + 1), k - 1, ?_, ?_, ?_, ?_⟩
        · simp only [TreeNode.children]
          rw [if_pos hc]
        · simp only [TreeNode.type]
          rw [if_pos hc.1]
        · have h2 := hc.2
          simp only [MAX_TREE_DEPTH] at h h2
          omega
        · have h2 := hc.2
          have hk1 : k - 1 + 1 = k := by
            simp only [MAX_TREE_DEPTH] at h h2
            omega
          rw [hk1]
          apply ih
          simp only [MAX_TREE_DEPTH] at h h2 ⊢
          omega
      · left
        simp only [TreeNode.children]
        rw [if_neg hc]

lemma read_some_shape (decode : String → Option (List Char))
    (repo : RepoHandle) (p : String) (s : List Char)
    (h : read_file_content decode repo p = some s) :
    ∃ cf dec, repo.getFile p = some cf ∧
      (cf.encoding == "base64" && cf.content != "") = true ∧
      decode cf.content = some dec ∧ s = dec.take MAX_FILE_CONTENT_LENGTH := by
  unfold read_file_content at h
  cases hg : repo.getFile p with
  | none => rw [hg] at h; exact absurd h (by simp)
  | some cf =>
    rw [hg] at h
    dsimp only at h
    by_cases he : (cf.encoding == "base64" && cf.content != "") = true
    · rw [if_pos he] at h
      cases hd : decode cf.content with
      | none => rw [hd] at h; exact absurd h (by simp)
      | some dec =>
        rw [hd] at h
        exact ⟨cf, dec, rfl, he, hd, by injection h with h; exact h.symm⟩
    · rw [if_neg he] at h
      exact absurd h (by simp)

/-- Claim C3: every tree built by `_build_tree` satisfies the depth-3
invariant: `children` only on `dir` nodes, only while at least two levels
remain, so no node lies deeper than `MAX_TREE_DEPTH` levels below the root
call and the deepest allowed level carries no `children` field. -/
theorem C3_tree_depth_invariant :
    ∀ (repo : RepoHandle) (path : String) (depth : Nat),
      forestOK (MAX_TREE_DEPTH - depth) (build_tree repo path depth) = true ∧
      forestOK MAX_TREE_DEPTH (build_tree repo path 0) = true := by
  intro repo path depth
  exact ⟨tree_forestOK _ depth repo path rfl, tree_forestOK _ 0 repo path rfl⟩

/-- Claim C4: `_read_file_content` is deterministic in the remote content,
every returned string is the 3000-character truncation of the decoded
content (hence of length at most 3000), and every fetch or decode failure
yields `none` rather than an error. -/
theorem C4_read_file_content :
    (∀ decode (r1 r2 : RepoHandle) p, r1.getFile p = r2.getFile p →
      read_file_content decode r1 p = read_file_content decode r2 p) ∧
    (∀ decode (r : RepoHandle) p s, read_file_content decode r p = some s →
      s.length ≤ MAX_FILE_CONTENT_LENGTH ∧
      ∃ cf dec, r.getFile p = some cf ∧ decode cf.content = some dec ∧
        s = dec.take MAX_FILE_CONTENT_LENGTH) ∧
    (∀ decode (r : RepoHandle) p, r.getFile p = none →
      read_file_content decode r p = none) ∧
    (∀ decode (r : RepoHandle) p cf, r.getFile p = some cf →
      decode cf.content = none → read_file_content decode r p = none) ∧
    (∀ decode (r : RepoHandle) p cf, r.getFile p = some cf →
      cf.encoding ≠ "base64" → read_file_content decode r p = none) := by
  refine ⟨?_, ?_, ?_, ?_, ?_⟩
  · intro decode r1 r2 p h
    unfold read_file_content
    rw [h]
  · intro decode r p s h
    obtain ⟨cf, dec, hg, he, hd, hs⟩ := read_some_shape decode r p s h
    refine ⟨?_, cf, dec, hg, hd, hs⟩
    rw [hs, List.length_take]
    exact Nat.min_le_left _ _
  · intro decode r p h
    unfold read_file_content
    rw [h]
  · intro decode r p cf hg hd
    unfold read_file_content
    rw [hg]
    dsimp only
    by_cases he : (cf.encoding == "base64" && cf.content != "") = true
    · rw [if_pos he, hd]
    · rw [if_neg he]
  · intro decode r p cf hg he
    unfold read_file_content
    rw [hg]
    dsimp only
    rw [if_neg]
    simp [he]

theorem C4_read_file_content_witness :
    read_file_content wDecode readmeRepo "README.md" = some ['h', 'i'] ∧
    (['h', 'i'] : List Char).length ≤ MAX_FILE_CONTENT_LENGTH ∧
    read_file_content wDecode emptyRepo "README.md" = none :=
  ⟨rfl,
   (C4_read_file_content.2.1 wDecode readmeRepo "README.md" ['h', 'i'] rfl).1,
   C4_read_file_content.2.2.1 wDecode emptyRepo "README.md" rfl⟩

/- ### Claim C7 — style fallback -/

lemma STYLES_get_unregistered (k : String) (h1 : k ≠ "minimal")
    (h2 : k ≠ "detailed") (h3 : k ≠ "awesome") : STYLES_get k = detailedStyle := by
  have e1 : (("minimal" : String) == k) = false := beq_eq_false_iff_ne.mpr (Ne.symm h1)
  have e2 : (("detailed" : String) == k) = false := beq_eq_false_iff_ne.mpr (Ne.symm h2)
  have e3 : (("awesome" : String) == k) = false := beq_eq_false_iff_ne.mpr (Ne.symm h3)
  unfold STYLES_get STYLES
  simp [List.find?, e1, e2, e3]

/-- Claim C7: for any style key outside the closed set (including `""`),
the generation prompt pair built by `build_chain` is identical to the pair
for `"detailed"`; the fallback never errors. -/
theorem C7_style_fallback :
    ∀ (dumps : JsonDumps) (d : Digest) (style custom : String),
      style ≠ "minimal" → style ≠ "detailed" → style ≠ "awesome" →
      generate_prompt_pair dumps d style custom =
        generate_prompt_pair dumps d "detailed" custom := by
  intro dumps d style custom h1 h2 h3
  unfold generate_prompt_pair build_system_prompt
  rw [STYLES_get_unregistered style h1 h2 h3]
  rfl

theorem C7_style_fallback_witness :
    generate_prompt_pair wDumps emptyDigest "" "" =
      generate_prompt_pair wDumps emptyDigest "detailed" "" :=
  C7_style_fallback wDumps emptyDigest "" "" (by decide) (by decide) (by decide)

/- ### Claim C8 — graceful degradation of the tree phase -/

/-- Claim C8: if every directory-listing call fails, `_build_tree` returns
the empty list (it never raises), and `fetch_repo_data` — whenever its
handle-resolution phase succeeds — still returns a digest whose
`file_tree` string is `""`. -/
theorem C8_tree_graceful_degradation :
    ∀ repo : RepoHandle, (∀ p, repo.listDir p = none) →
      (∀ path depth, build_tree repo path depth = []) ∧
      (∀ (g : Github) decode url tok fn tp lg,
        parse_repo_url url = .ok fn →
        g.get_repo tok fn = some repo →
        repo.topics = some tp → repo.languages = some lg →
        ∃ d, fetch_repo_data g decode url tok = .ok d ∧ d.file_tree = "") := by
  intro repo hfail
  have hbt := build_tree_listDir_none repo hfail
  refine ⟨hbt, ?_⟩
  intro g decode url tok fn tp lg hparse hrepo htp hlg
  unfold fetch_repo_data
  rw [hparse]
  dsimp only
  rw [hrepo]
  dsimp only
  rw [htp]
  dsimp only
  rw [hlg]
  dsimp only
  rw [hbt, format_tree_nil]
  exact ⟨_, rfl, rfl⟩

theorem C8_tree_graceful_degradation_witness :
    build_tree emptyRepo "src" 0 = [] ∧
    ∃ d, fetch_repo_data (wGithub emptyRepo) wDecode "o/r".toList "" = .ok d ∧
      d.file_tree = "" :=
  ⟨(C8_tree_graceful_degradation emptyRepo (fun _ => rfl)).1 "src" 0,
   (C8_tree_graceful_degradation emptyRepo (fun _ => rfl)).2
     (wGithub emptyRepo) wDecode "o/r".toList "" "o/r".toList [] []
     rfl rfl rfl rfl⟩

/- ### Claim C2 — error surface of fetch_repo_data -/

/-- Claim C2 (counterexample): a client whose handle resolution succeeds but
whose topic fetch fails.  The claim asserts every post-resolution sub-fetch
failure (explicitly including topic tags and language byte counts) still
yields a complete digest; instead `fetch_repo_data` aborts, and with an
exception that is not the `RepositoryAccessError`-class `ValueError`. -/
theorem C2_counterexample :
    fetch_repo_data (wGithub topicsFailRepo) wDecode "o/r".toList "" =
      .error (.uncaughtException "GithubException from get_topics") := rfl

/-- Claim C2 (amended): handle-resolution failure yields the
`RepositoryAccessError`-class `ValueError`; and when resolution, the topic
fetch and the language fetch all succeed, the call returns a digest for
every behaviour of the directory-listing and file-content fetches (those
sub-fetch failures degrade gracefully).  Topic/language fetch failures,
however, propagate (see the counterexample). -/
theorem C2_error_surface :
    (∀ (g : Github) decode url tok fn,
      parse_repo_url url = .ok fn → g.get_repo tok fn = none →
      ∃ m, fetch_repo_data g decode url tok = .error (.repositoryAccess m)) ∧
    (∀ (g : Github) decode url tok fn repo tp lg,
      parse_repo_url url = .ok fn → g.get_repo tok fn = some repo →
      repo.topics = some tp → repo.languages = some lg →
      ∃ d, fetch_repo_data g decode url tok = .ok d) := by
  constructor
  · intro g decode url tok fn hparse hnone
    unfold fetch_repo_data
    rw [hparse]
    dsimp only
    rw [hnone]
    exact ⟨_, rfl⟩
  · intro g decode url tok fn repo tp lg hparse hrepo htp hlg
    unfold fetch_repo_data
    rw [hparse]
    dsimp only
    rw [hrepo]
    dsimp only
    rw [htp]
    dsimp only
    rw [hlg]
    exact ⟨_, rfl⟩

theorem C2_error_surface_witness :
    (∃ m, fetch_repo_data ⟨fun _ _ => none⟩ wDecode "o/r".toList "" =
      .error (.repositoryAccess m)) ∧
    (∃ d, fetch_repo_data (wGithub emptyRepo) wDecode "o/r".toList "" = .ok d) :=
  ⟨C2_error_surface.1 ⟨fun _ _ => none⟩ wDecode "o/r".toList "" "o/r".toList rfl rfl,
   C2_error_surface.2 (wGithub emptyRepo) wDecode "o/r".toList "" "o/r".toList
     emptyRepo [] [] rfl rfl rfl rfl⟩

/- ### Claim C6 — refusal when there is no README to analyze -/

/-- Claim C6: whenever the fetched digest has no (or an empty) README, the
analyze endpoint answers the client-input error 400 whose message states
there is nothing to analyze, and its result does not depend on the
completion service or the response parser — they are never consulted. -/
theorem C6_refuse_without_readme :
    ∀ (g : Github) decode dumps (c1 c2 : String → String → Except String String)
      (p1 p2 : String → Option Json) (tok : String) (req : AnalyzeRequest)
      (d : Digest),
      fetch_repo_data g decode req.repo_url (pyOr req.github_token tok) = .ok d →
      (d.existing_readme = none ∨ d.existing_readme = some []) →
      analyze_endpoint g decode dumps c1 p1 tok req =
        .error ⟨400, "No existing README found in " ++ d.metadata.full_name
                       ++ ". Nothing to analyze."⟩ ∧
      analyze_endpoint g decode dumps c1 p1 tok req =
        analyze_endpoint g decode dumps c2 p2 tok req := by
  intro g decode dumps c1 c2 p1 p2 tok req d hfetch hre
  have htr : pyTruthy d.existing_readme = false := by
    rcases hre with h | h <;> simp [pyTruthy, h]
  constructor
  · simp only [analyze_endpoint]
    rw [hfetch]
    dsimp only
    rw [if_pos htr]
  · simp only [analyze_endpoint]
    rw [hfetch]
    dsimp only
    rw [if_pos htr, if_pos htr]

theorem C6_refuse_without_readme_witness :
    analyze_endpoint (wGithub emptyRepo) wDecode wDumps
        (fun _ _ => .ok "x") (fun _ => none) "" ⟨"o/r".toList, none⟩ =
      .error ⟨400, "No existing README found in " ++ emptyDigest.metadata.full_name
                     ++ ". Nothing to analyze."⟩ ∧
    analyze_endpoint (wGithub emptyRepo) wDecode wDumps
        (fun _ _ => .ok "x") (fun _ => none) "" ⟨"o/r".toList, none⟩ =
      analyze_endpoint (wGithub emptyRepo) wDecode wDumps
        (fun _ _ => .error "down") (fun _ => some .null) "" ⟨"o/r".toList, none⟩ :=
  C6_refuse_without_readme (wGithub emptyRepo) wDecode wDumps
    (fun _ _ => .ok "x") (fun _ _ => .error "down")
    (fun _ => none) (fun _ => some .null) "" ⟨"o/r".toList, none⟩ emptyDigest
    fetch_empty_eval (Or.inl rfl)

/- ### Claim C5 — analysis defaulting versus hard failure -/

lemma getOrDefault_of_none {α : Type} (fields : List (String × Json))
    (key : String) (dflt : α) (coerce : Json → Option α)
    (h : jsonObjGet fields key = none) :
    getOrDefault fields key dflt coerce = some dflt := by
  unfold getOrDefault
  rw [h]

/-- Claim C5: a response that is valid JSON (an object, as the rubric
mandates) missing any of the five fields yields the field's zero value in
the verdict rather than failing — in particular a missing `"strengths"`
yields `[]`, and the object missing all fields yields the all-defaults
verdict; a response that is not valid JSON makes `analyze_readme` fail with
the malformed-response error, which the endpoint surfaces as a 500, never
as a silently zeroed verdict. -/
theorem C5_analysis_defaulting :
    (∀ (fields : List (String × Json)) nm r,
      buildAnalyzeResponse fields nm = some r →
      (jsonObjGet fields "strengths" = none → r.strengths = []) ∧
      (jsonObjGet fields "score" = none → r.score = 0) ∧
      (jsonObjGet fields "summary" = none → r.summary = "") ∧
      (jsonObjGet fields "improvements" = none → r.improvements = []) ∧
      (jsonObjGet fields "missing_sections" = none → r.missing_sections = [])) ∧
    (∀ nm, buildAnalyzeResponse [] nm =
      some { score := 0, summary := "", strengths := [], improvements := [],
             missing_sections := [], repo_name := nm }) ∧
    (∀ complete parseJson dumps d resp,
      complete ANALYZE_SYSTEM_PROMPT (analyze_user_prompt dumps d) = .ok resp →
      parseJson resp = none →
      analyze_readme_run complete parseJson dumps d =
        .error (.malformedResponse resp)) ∧
    (∀ (g : Github) decode dumps complete parseJson tok req d m,
      fetch_repo_data g decode req.repo_url (pyOr req.github_token tok) = .ok d →
      pyTruthy d.existing_readme = true →
      analyze_readme_run complete parseJson dumps d =
        .error (.malformedResponse m) →
      analyze_endpoint g decode dumps complete parseJson tok req =
        .error ⟨500, "Failed to analyze README: Invalid json output: " ++ m⟩) := by
  refine ⟨?_, ?_, ?_, ?_⟩
  · intro fields nm r h
    unfold buildAnalyzeResponse at h
    simp only [bind, Option.bind_eq_some, Option.some.injEq, pure] at h
    obtain ⟨score, hs, summary, hsum, strengths, hst, improvements, him,
      missing, hm, hr⟩ := h
    subst hr
    refine ⟨?_, ?_, ?_, ?_, ?_⟩
    · intro hn
      rw [getOrDefault_of_none _ _ _ _ hn] at hst
      injection hst with e
      exact e.symm
    · intro hn
      rw [getOrDefault_of_none _ _ _ _ hn] at hs
      injection hs with e
      exact e.symm
    · intro hn
      rw [getOrDefault_of_none _ _ _ _ hn] at hsum
      injection hsum with e
      exact e.symm
    · intro hn
      rw [getOrDefault_of_none _ _ _ _ hn] at him
      injection him with e
      exact e.symm
    · intro hn
      rw [getOrDefault_of_none _ _ _ _ hn] at hm
      injection hm with e
      exact e.symm
  · intro nm
    rfl
  · intro complete parseJson dumps d resp hc hp
    unfold analyze_readme_run
    rw [hc]
    dsimp only
    rw [hp]
  · intro g decode dumps complete parseJson tok req d m hfetch ht hrun
    simp only [analyze_endpoint]
    rw [hfetch]
    dsimp only
    rw [if_neg (by simp [ht]), hrun]

theorem C5_analysis_defaulting_witness :
    buildAnalyzeResponse [("score", Json.num 55)] "o/r" =
      some { score := 55, summary := "", strengths := [], improvements := [],
             missing_sections := [], repo_name := "o/r" } ∧
    ({ score := 55, summary := "", strengths := [], improvements := [],
       missing_sections := [], repo_name := "o/r" } : AnalyzeResponse).strengths
      = [] ∧
    analyze_readme_run (fun _ _ => .ok "x") (fun _ => none) wDumps readmeDigest =
      .error (.malformedResponse "x") ∧
    analyze_endpoint (wGithub readmeRepo) wDecode wDumps (fun _ _ => .ok "x")
        (fun _ => none) "" ⟨"o/r".toList, none⟩ =
      .error ⟨500, "Failed to analyze README: Invalid json output: " ++ "x"⟩ :=
  ⟨rfl,
   (C5_analysis_defaulting.1 [("score", Json.num 55)] "o/r" _ rfl).1 rfl,
   C5_analysis_defaulting.2.2.1 (fun _ _ => .ok "x") (fun _ => none) wDumps
     readmeDigest "x" rfl rfl,
   C5_analysis_defaulting.2.2.2 (wGithub readmeRepo) wDecode wDumps
     (fun _ _ => .ok "x") (fun _ => none) "" ⟨"o/r".toList, none⟩ readmeDigest
     "x" fetch_readme_eval rfl rfl⟩

/- ### Claim C10 — digest content invariants -/

lemma findSome?_eq_some_exists {α β : Type} (f : α → Option β) :
    ∀ (l : List α) (b : β), l.findSome? f = some b → ∃ a ∈ l, f a = some b := by
  intro l
  induction l with
  | nil => intro b h; simp [List.findSome?] at h
  | cons a l ih =>
    intro b h
    rw [List.findSome?] at h
    cases hfa : f a with
    | some c =>
      rw [hfa] at h
      injection h with h
      exact ⟨a, List.mem_cons_self a l, by rw [hfa, h]⟩
    | none =>
      rw [hfa] at h
      obtain ⟨x, hx, hfx⟩ := ih b h
      exact ⟨x, List.mem_cons_of_mem _ hx, hfx⟩

lemma collect_important_files_mem (decode : String → Option (List Char))
    (repo : RepoHandle) :
    ∀ (fps : List String) (acc : List (String × List Char))
      (pr : String × List Char),
      pr ∈ fps.foldl (fun acc fp =>
        match read_file_content decode repo fp with
        | some c => if c.isEmpty then acc else acc ++ [(fp, c)]
        | none => acc) acc →
      pr ∈ acc ∨
        (read_file_content decode repo pr.1 = some pr.2 ∧ pr.2 ≠ []) := by
  intro fps
  induction fps with
  | nil => intro acc pr h; exact Or.inl h
  | cons fp fps ih =>
    intro acc pr h
    rw [List.foldl_cons] at h
    rcases ih _ pr h with hacc | hgood
    · cases hrd : read_file_content decode repo fp with
      | none => rw [hrd] at hacc; exact Or.inl hacc
      | some c =>
        rw [hrd] at hacc
        dsimp only at hacc
        by_cases hce : c.isEmpty = true
        · rw [if_pos hce] at hacc; exact Or.inl hacc
        · rw [if_neg hce] at hacc
          rcases List.mem_append.mp hacc with h1 | h2
          · exact Or.inl h1
          · rw [List.mem_singleton] at h2
            subst h2
            right
            refine ⟨hrd, ?_⟩
            intro hnil
            exact hce (by simp [show c = [] from hnil])
    · exact Or.inr hgood

lemma read_some_length (decode : String → Option (List Char))
    (repo : RepoHandle) (p : String) (s : List Char)
    (h : read_file_content decode repo p = some s) :
    s.length ≤ MAX_FILE_CONTENT_LENGTH := by
  obtain ⟨cf, dec, _, _, _, hs⟩ := read_some_shape decode repo p s h
  rw [hs, List.length_take]
  exact Nat.min_le_left _ _

lemma findSome?_cons_none {α β : Type} (f : α → Option β) (a : α) (l : List α)
    (h : f a = none) : (a :: l).findSome? f = l.findSome? f := by
  rw [List.findSome?, h]

lemma findSome?_cons_some {α β : Type} (f : α → Option β) (a : α) (l : List α)
    (b : β) (h : f a = some b) : (a :: l).findSome? f = some b := by
  rw [List.findSome?, h]

lemma find_existing_readme_skip (decode : String → Option (List Char))
    (repo : RepoHandle)
    (h1 : read_file_content decode repo "README.md" = none ∨
          read_file_content decode repo "README.md" = some [])
    (c : List Char) (h2 : read_file_content decode repo "readme.md" = some c)
    (hc : c ≠ []) : find_existing_readme decode repo = some c := by
  have hce : ¬(c.isEmpty = true) := by simp [hc]
  unfold find_existing_readme
  simp only [README_CANDIDATES, List.findSome?]
  rcases h1 with hb | hb <;> rw [hb, h2] <;> simp [hce]

lemma find_existing_readme_some (decode : String → Option (List Char))
    (repo : RepoHandle) (c : List Char)
    (h : find_existing_readme decode repo = some c) :
    c ≠ [] ∧ c.length ≤ MAX_FILE_CONTENT_LENGTH := by
  unfold find_existing_readme at h
  obtain ⟨nm, _, hch⟩ := findSome?_eq_some_exists _ README_CANDIDATES c h
  cases hr : read_file_content decode repo nm with
  | none => rw [hr] at hch; exact absurd hch (by simp)
  | some c' =>
    rw [hr] at hch
    dsimp only at hch
    by_cases hce : c'.isEmpty = true
    · rw [if_pos hce] at hch; exact absurd hch (by simp)
    · rw [if_neg hce] at hch
      injection hch with e
      refine ⟨?_, ?_⟩
      · intro hnil
        exact hce (by simp [e, hnil])
      · rw [← e]
        exact read_some_length decode repo nm c' hr

/-- Claim C10: in every digest produced by `fetch_repo_data`, every
`important_files` value and the `existing_readme` (when present) is a
non-empty string of at most 3000 characters; a file that is absent or reads
empty is omitted from `important_files`; and README selection is by first
non-empty content — an absent or empty `README.md` is skipped in favour of
a non-empty `readme.md`. -/
theorem C10_digest_content_invariant :
    ∀ (g : Github) (decode : String → Option (List Char)) url tok d,
      fetch_repo_data g decode url tok = .ok d →
      (∀ p c, (p, c) ∈ d.important_files →
        c ≠ [] ∧ c.length ≤ MAX_FILE_CONTENT_LENGTH) ∧
      (∀ c, d.existing_readme = some c →
        c ≠ [] ∧ c.length ≤ MAX_FILE_CONTENT_LENGTH) ∧
      (∀ fn repo, parse_repo_url url = .ok fn → g.get_repo tok fn = some repo →
        (∀ fp v, (read_file_content decode repo fp = none ∨
                  read_file_content decode repo fp = some []) →
          (fp, v) ∉ d.important_files) ∧
        ((read_file_content decode repo "README.md" = none ∨
          read_file_content decode repo "README.md" = some []) →
         ∀ c, read_file_content decode repo "readme.md" = some c → c ≠ [] →
           d.existing_readme = some c)) := by
  intro g decode url tok d hfetch
  unfold fetch_repo_data at hfetch
  cases hparse : parse_repo_url url with
  | error m => rw [hparse] at hfetch; exact absurd hfetch (by simp)
  | ok fn =>
    rw [hparse] at hfetch
    dsimp only at hfetch
    cases hrepo : g.get_repo tok fn with
    | none => rw [hrepo] at hfetch; exact absurd hfetch (by simp)
    | some repo =>
      rw [hrepo] at hfetch
      dsimp only at hfetch
      cases htp : repo.topics with
      | none => rw [htp] at hfetch; exact absurd hfetch (by simp)
      | some tp =>
        rw [htp] at hfetch
        dsimp only at hfetch
        cases hlg : repo.languages with
        | none => rw [hlg] at hfetch; exact absurd hfetch (by simp)
        | some lg =>
          rw [hlg] at hfetch
          dsimp only at hfetch
          injection hfetch with hfetch
          subst hfetch
          have hmem : ∀ (pr : String × List Char),
              pr ∈ collect_important_files decode repo →
              read_file_content decode repo pr.1 = some pr.2 ∧ pr.2 ≠ [] := by
            intro pr h
            rcases collect_important_files_mem decode repo IMPORTANT_FILES [] pr h
              with h0 | hgood
            · exact absurd h0 (List.not_mem_nil pr)
            · exact hgood
          refine ⟨?_, ?_, ?_⟩
          · intro p c hmemd
            have h2 := hmem (p, c) hmemd
            exact ⟨h2.2, read_some_length decode repo p c h2.1⟩
          · intro c hrd
            exact find_existing_readme_some decode repo c hrd
          · intro fn0 repo0 hparse0 hrepo0
            injection hparse0 with e1
            subst e1
            rw [hrepo] at hrepo0
            injection hrepo0 with e2
            subst e2
            constructor
            · intro fp v hbad hmemd
              have h2 := hmem (fp, v) hmemd
              rcases hbad with hb | hb
              · rw [h2.1] at hb; exact absurd hb (by simp)
              · rw [h2.1] at hb
                injection hb with e
                exact h2.2 e
            · intro hskip c hr2 hc2
              exact find_existing_readme_skip decode repo hskip c hr2 hc2

/-- Client whose `README.md` is absent but whose `readme.md` is non-empty:
exercises the skip-to-next-candidate selection. -/
def readme2Repo : RepoHandle :=
  { emptyRepo with getFile := fun p =>
      if p == "readme.md" then some { encoding := "base64", content := "aGk=" }
      else none }

lemma fetch_readme2_eval :
    fetch_repo_data (wGithub readme2Repo) wDecode "o/r".toList "" =
      .ok readmeDigest := by
  have hbt : build_tree readme2Repo "" 0 = [] :=
    build_tree_listDir_none readme2Repo (fun _ => rfl) "" 0
  unfold fetch_repo_data
  rw [show parse_repo_url "o/r".toList = .ok "o/r".toList from rfl]
  dsimp only
  rw [show (wGithub readme2Repo).get_repo "" "o/r".toList = some readme2Repo from rfl]
  dsimp only
  rw [show readme2Repo.topics = some [] from rfl]
  dsimp only
  rw [show readme2Repo.languages = some [] from rfl]
  dsimp only
  rw [hbt, format_tree_nil]
  rfl

theorem C10_digest_content_invariant_witness :
    (['h', 'i'] : List Char) ≠ [] ∧
    (['h', 'i'] : List Char).length ≤ MAX_FILE_CONTENT_LENGTH ∧
    readmeDigest.existing_readme = some ['h', 'i'] := by
  have h := C10_digest_content_invariant (wGithub readme2Repo) wDecode
    "o/r".toList "" readmeDigest fetch_readme2_eval
  have hb := h.2.1 ['h', 'i'] rfl
  have hs := (h.2.2 "o/r".toList readme2Repo rfl rfl).2 (Or.inl rfl)
    ['h', 'i'] rfl (by decide)
  exact ⟨hb.1, hb.2, hs⟩

/- ### Claim C9 — end-to-end generation scenario A -/

/-- Claim C9: for style `"minimal"`, no custom instructions and a digest
with no existing README, the rendered user prompt contains the literal
placeholder `"_No existing README found._"` and the system prompt contains
the minimal style profile's instruction block verbatim. -/
theorem C9_minimal_no_readme_prompts :
    ∀ (dumps : JsonDumps) (d : Digest), d.existing_readme = none →
      "_No existing README found._".data <:+:
        (generate_prompt_pair dumps d "minimal" "").2.data ∧
      minimalStyle.instructions.data <:+:
        (generate_prompt_pair dumps d "minimal" "").1.data := by
  intro dumps d hre
  constructor
  · show "_No existing README found._".data <:+:
      (generate_user_prompt dumps d).data
    unfold generate_user_prompt
    rw [hre]
    dsimp only
    refine ⟨(USER_TEMPLATE_1 ++ dumps.dumpsMeta d.metadata ++ USER_TEMPLATE_2 ++
      dumps.dumpsLangs d.languages ++ USER_TEMPLATE_3 ++
      (if d.file_tree == "" then "No file tree available" else d.file_tree) ++
      USER_TEMPLATE_4 ++ format_important_files d.important_files ++
      USER_TEMPLATE_5).data, USER_TEMPLATE_6.data, ?_⟩
    simp only [String.data_append, List.append_assoc]
  · show minimalStyle.instructions.data <:+: (build_system_prompt "minimal" "").data
    unfold build_system_prompt
    rw [show STYLES_get "minimal" = minimalStyle from rfl]
    refine ⟨SYSTEM_PROMPT_PRE.data,
      (("\n\n" : String) ++ custom_instructions_block "" ++
        SYSTEM_PROMPT_POST).data, ?_⟩
    simp only [String.data_append, List.append_assoc]

theorem C9_minimal_no_readme_prompts_witness :
    "_No existing README found._".data <:+:
      (generate_prompt_pair wDumps emptyDigest "minimal" "").2.data ∧
    minimalStyle.instructions.data <:+:
      (generate_prompt_pair wDumps emptyDigest "minimal" "").1.data :=
  C9_minimal_no_readme_prompts wDumps emptyDigest rfl

/- ### Claim C1 — helper lemmas about takeWhile/dropWhile/affixes -/

lemma dropWhile_all (p : Char → Bool) (a b : List Char)
    (h : ∀ c ∈ a, p c = true) : (a ++ b).dropWhile p = b.dropWhile p := by
  induction a with
  | nil => rfl
  | cons c as ih =>
    rw [List.cons_append, List.dropWhile_cons]
    simp only [h c (List.mem_cons_self _ _), if_true]
    exact ih (fun x hx => h x (List.mem_cons_of_mem _ hx))

lemma dropWhile_cons_false (p : Char → Bool) (c : Char) (l : List Char)
    (h : p c = false) : (c :: l).dropWhile p = c :: l := by
  rw [List.dropWhile_cons]
  simp [h]

lemma takeWhile_all (p : Char → Bool) (a b : List Char)
    (h : ∀ c ∈ a, p c = true) : (a ++ b).takeWhile p = a ++ b.takeWhile p := by
  induction a with
  | nil => rfl
  | cons c as ih =>
    rw [List.cons_append, List.takeWhile_cons]
    simp only [h c (List.mem_cons_self _ _), if_true, List.cons_append]
    rw [ih (fun x hx => h x (List.mem_cons_of_mem _ hx))]

lemma takeWhile_cons_false (p : Char → Bool) (c : Char) (l : List Char)
    (h : p c = false) : (c :: l).takeWhile p = [] := by
  rw [List.takeWhile_cons]
  simp [h]

lemma takeWhile_id (p : Char → Bool) (l : List Char)
    (h : ∀ c ∈ l, p c = true) : l.takeWhile p = l := by
  induction l with
  | nil => rfl
  | cons c as ih =>
    rw [List.takeWhile_cons]
    simp only [h c (List.mem_cons_self _ _), if_true]
    rw [ih (fun x hx => h x (List.mem_cons_of_mem _ hx))]

lemma dropWhile_nil_of_all (p : Char → Bool) (l : List Char)
    (h : ∀ c ∈ l, p c = true) : l.dropWhile p = [] := by
  induction l with
  | nil => rfl
  | cons c as ih =>
    rw [List.dropWhile_cons]
    simp only [h c (List.mem_cons_self _ _), if_true]
    exact ih (fun x hx => h x (List.mem_cons_of_mem _ hx))

lemma isPrefixOf_self_append (a b : List Char) : a.isPrefixOf (a ++ b) = true :=
  List.isPrefixOf_iff_prefix.mpr (List.prefix_append a b)

/- ### Claim C1 — predicates written from the claim's words (refinement side)

   `specTwoPartShape` is the claim's "exactly one `/`-separated two-part
   shape"; `specGithubHostRef` is the claim's "valid `github.com` host
   prefix" (optional scheme, host, then owner and repository parts).  They
   are compared with the source-derived matchers. -/

def specTwoPartShape (l : List Char) : Prop :=
  ∃ a b, l = a ++ '/' :: b ∧ a ≠ [] ∧ b ≠ [] ∧ '/' ∉ a ∧ '/' ∉ b

def specGithubHostRef (l : List Char) : Prop :=
  ∃ scheme rest,
    (scheme = ([] : List Char) ∨ scheme = "https://".toList ∨
      scheme = "http://".toList) ∧
    l = scheme ++ "github.com/".toList ++ rest ∧
    ∃ a b t, rest = a ++ '/' :: b ++ t ∧ a ≠ [] ∧ b ≠ [] ∧ '/' ∉ a ∧ '/' ∉ b

lemma matchOwnerPart_some_shape (w v : List Char)
    (h : matchOwnerPart w = some v) :
    ∃ a b t, w = a ++ '/' :: b ++ t ∧ a ≠ [] ∧ b ≠ [] ∧ '/' ∉ a ∧ '/' ∉ b := by
  unfold matchOwnerPart at h
  dsimp only at h
  split at h
  · exact absurd h (by simp)
  · split at h
    · exact absurd h (by simp)
    · rename_i ow rs hd tl rest2 heq1 heq2 hnm
      refine ⟨w.takeWhile (· != '/'), rest2.takeWhile (· != '/'),
        rest2.dropWhile (· != '/'), ?_, ?_, ?_, ?_, ?_⟩
      · conv_lhs => rw [← List.takeWhile_append_dropWhile (p := (· != '/')) (l := w)]
        rw [heq2]
        simp [List.takeWhile_append_dropWhile]
      · rw [heq1]; simp
      · intro hnil
        rw [← List.isEmpty_iff] at hnil
        exact hnm (by simpa using hnil)
      · intro hmem
        have := List.mem_takeWhile_imp hmem
        simp at this
      · intro hmem
        have := List.mem_takeWhile_imp hmem
        simp at this
  · exact absurd h (by simp)

lemma matchOwnerRepo_some_shape (u v : List Char)
    (h : matchOwnerRepo u = some v) : specTwoPartShape u := by
  unfold matchOwnerRepo at h
  dsimp only at h
  split at h
  · exact absurd h (by simp)
  · split at h
    · exact absurd h (by simp)
    · split at h
      · exact absurd h (by simp)
      · rename_i ow rs hd tl rest2 heq1 heq2 hne2 hany
        refine ⟨u.takeWhile (· != '/'), rest2, ?_, ?_, ?_, ?_, ?_⟩
        · conv_lhs => rw [← List.takeWhile_append_dropWhile (p := (· != '/')) (l := u)]
          rw [heq2]
        · rw [heq1]; simp
        · intro hnil
          rw [← List.isEmpty_iff] at hnil
          exact hne2 (by simpa using hnil)
        · intro hmem
          have := List.mem_takeWhile_imp hmem
          simp at this
        · intro hmem
          apply hany
          rw [List.any_eq_true]
          exact ⟨'/', hmem, by simp⟩
  · exact absurd h (by simp)

lemma drop_of_isPrefixOf (a u : List Char) (n : Nat)
    (h : a.isPrefixOf u = true) (hn : a.length = n) : u = a ++ u.drop n := by
  obtain ⟨t, ht⟩ := List.isPrefixOf_iff_prefix.mp h
  subst hn
  conv_lhs => rw [← ht]
  rw [← ht, List.drop_left]

lemma matchGithub_some_shape (u v : List Char)
    (h : matchGithub u = some v) : specGithubHostRef u := by
  unfold matchGithub at h
  dsimp only at h
  split at h
  case isFalse => exact absurd h (by simp)
  case isTrue hgh =>
  by_cases h1 : "https://".toList.isPrefixOf u = true
  · have has : afterScheme u = u.drop 8 := by
      unfold afterScheme
      rw [if_pos h1]
    rw [has] at hgh h
    obtain ⟨a, b, t, hw, ha, hb, hna, hnb⟩ := matchOwnerPart_some_shape _ _ h
    refine ⟨"https://".toList, (u.drop 8).drop 11, Or.inr (Or.inl rfl), ?_,
      a, b, t, hw, ha, hb, hna, hnb⟩
    rw [List.append_assoc,
      ← drop_of_isPrefixOf _ _ _ hgh (show ("github.com/".toList).length = 11 from rfl)]
    exact drop_of_isPrefixOf _ _ _ h1 (show ("https://".toList).length = 8 from rfl)
  · by_cases h2 : "http://".toList.isPrefixOf u = true
    · have has : afterScheme u = u.drop 7 := by
        unfold afterScheme
        rw [if_neg h1, if_pos h2]
      rw [has] at hgh h
      obtain ⟨a, b, t, hw, ha, hb, hna, hnb⟩ := matchOwnerPart_some_shape _ _ h
      refine ⟨"http://".toList, (u.drop 7).drop 11, Or.inr (Or.inr rfl), ?_,
        a, b, t, hw, ha, hb, hna, hnb⟩
      rw [List.append_assoc,
        ← drop_of_isPrefixOf _ _ _ hgh (show ("github.com/".toList).length = 11 from rfl)]
      exact drop_of_isPrefixOf _ _ _ h2 (show ("http://".toList).length = 7 from rfl)
    · have has : afterScheme u = u := by
        unfold afterScheme
        rw [if_neg h1, if_neg h2]
      rw [has] at hgh h
      obtain ⟨a, b, t, hw, ha, hb, hna, hnb⟩ := matchOwnerPart_some_shape _ _ h
      refine ⟨[], u.drop 11, Or.inl rfl, ?_, a, b, t, hw, ha, hb, hna, hnb⟩
      rw [List.nil_append]
      exact drop_of_isPrefixOf _ _ _ hgh (show ("github.com/".toList).length = 11 from rfl)

/- ### Claim C1 — dispatch lemmas for parse_repo_url -/

lemma parse_ok_of_matchGithub (url g : List Char)
    (h : matchGithub (preprocess url) = some g) : parse_repo_url url = .ok g := by
  unfold parse_repo_url
  dsimp only
  rw [h]

lemma parse_ok_of_matchOwnerRepo (url g : List Char)
    (h1 : matchGithub (preprocess url) = none)
    (h2 : matchOwnerRepo (preprocess url) = some g) :
    parse_repo_url url = .ok g := by
  unfold parse_repo_url
  dsimp only
  rw [h1]
  dsimp only
  rw [h2]

lemma parse_error_of_none (url : List Char)
    (h1 : matchGithub (preprocess url) = none)
    (h2 : matchOwnerRepo (preprocess url) = none) :
    ∃ m, parse_repo_url url = .error m := by
  unfold parse_repo_url
  dsimp only
  rw [h1]
  dsimp only
  rw [h2]
  exact ⟨_, rfl⟩

/- ### Claim C1 — evaluation of the preprocessing pipeline -/

lemma dropWhile_sandwich (ws : List Char) (c0 : Char) (rest : List Char)
    (hw : ∀ c ∈ ws, pyIsSpace c = true) (hc0 : pyIsSpace c0 = false) :
    (ws ++ c0 :: rest).dropWhile pyIsSpace = c0 :: rest := by
  rw [dropWhile_all pyIsSpace ws _ hw, dropWhile_cons_false pyIsSpace c0 rest hc0]

lemma pyStrip_sandwich (ws1 ws2 mid : List Char) (c0 lc : Char)
    (hw1 : ∀ c ∈ ws1, pyIsSpace c = true) (hw2 : ∀ c ∈ ws2, pyIsSpace c = true)
    (hc0 : pyIsSpace c0 = false) (hlc : pyIsSpace lc = false) :
    pyStrip (ws1 ++ (c0 :: (mid ++ [lc])) ++ ws2) = c0 :: (mid ++ [lc]) := by
  unfold pyStrip
  rw [show ws1 ++ (c0 :: (mid ++ [lc])) ++ ws2 =
      ws1 ++ c0 :: (mid ++ [lc] ++ ws2) from by simp]
  rw [dropWhile_sandwich ws1 c0 _ hw1 hc0]
  rw [show (c0 :: (mid ++ [lc] ++ ws2)).reverse =
      ws2.reverse ++ lc :: (mid.reverse ++ [c0]) from by simp]
  rw [dropWhile_sandwich ws2.reverse lc _
    (fun c hc => hw2 c (List.mem_reverse.mp hc)) hlc]
  simp

lemma rstripSlashes_concat_ne (x : List Char) (c : Char) (h : (c == '/') = false) :
    rstripSlashes (x ++ [c]) = x ++ [c] := by
  unfold rstripSlashes
  rw [show (x ++ [c]).reverse = c :: x.reverse from by simp]
  rw [dropWhile_cons_false (fun y => y == '/') c x.reverse h]
  simp

lemma rstripSlashes_append_slash (x : List Char) :
    rstripSlashes (x ++ ['/']) = rstripSlashes x := by
  unfold rstripSlashes
  rw [show (x ++ ['/']).reverse = '/' :: x.reverse from by simp]
  rw [List.dropWhile_cons]
  simp

lemma isSuffixOf_append_self (s x : List Char) : s.isSuffixOf (x ++ s) = true :=
  List.isSuffixOf_iff_suffix.mpr ⟨x, rfl⟩

lemma take_strip_git (x : List Char) :
    (x ++ ".git".toList).take ((x ++ ".git".toList).length - 4) = x := by
  have h4 : (".git".toList : List Char).length = 4 := rfl
  have hlen : (x ++ ".git".toList).length - 4 = x.length := by
    rw [List.length_append, h4]
    omega
  rw [hlen, List.take_left]

lemma git_not_suffix (x r : List Char) (_hr : r ≠ [])
    (hgit : ".git".toList.isSuffixOf r = false) :
    ".git".toList.isSuffixOf (x ++ '/' :: r) = false := by
  by_contra hcon
  rw [Bool.not_eq_false] at hcon
  obtain ⟨t, ht⟩ := List.isSuffixOf_iff_suffix.mp hcon
  have hrev : ".git".toList.reverse ++ t.reverse = r.reverse ++ '/' :: x.reverse := by
    rw [← List.reverse_append, ht]
    simp
  have htk : (".git".toList.reverse ++ t.reverse).take 4 = ".git".toList.reverse := by
    rw [show (4 : Nat) = (".git".toList.reverse : List Char).length from rfl,
      List.take_left]
  by_cases hlen : 4 ≤ r.length
  · have htk2 : (r.reverse ++ '/' :: x.reverse).take 4 = r.reverse.take 4 :=
      List.take_append_of_le_length (by simpa using hlen)
    rw [hrev, htk2] at htk
    have hpre : ".git".toList.reverse <+: r.reverse :=
      ⟨r.reverse.drop 4, by rw [← htk, List.take_append_drop]⟩
    have hsuf : ".git".toList <:+ r := List.reverse_prefix.mp hpre
    have := List.isSuffixOf_iff_suffix.mpr hsuf
    rw [hgit] at this
    exact absurd this (by simp)
  · have hmem : '/' ∈ (r.reverse ++ '/' :: x.reverse).take 4 := by
      rw [List.take_append_eq_append_take]
      apply List.mem_append_right
      have hlr : r.reverse.length ≤ 3 := by
        rw [List.length_reverse]
        omega
      have h41 : 4 - r.reverse.length = (3 - r.reverse.length) + 1 := by omega
      rw [h41, List.take_succ_cons]
      exact List.mem_cons_self _ _
    rw [← hrev, htk] at hmem
    exact absurd hmem (by decide)

lemma preprocess_sandwich (ws1 ws2 t0 r rin suf : List Char) (c0 rl : Char)
    (hw1 : ∀ c ∈ ws1, pyIsSpace c = true) (hw2 : ∀ c ∈ ws2, pyIsSpace c = true)
    (hc0 : pyIsSpace c0 = false)
    (hrdec : r = rin ++ [rl]) (hrl : rl ≠ '/' ∧ pyIsSpace rl = false)
    (hr : r ≠ []) (hgit : ".git".toList.isSuffixOf r = false)
    (hsuf : suf = [] ∨ suf = ".git".toList ∨ suf = ['/']) :
    preprocess (ws1 ++ (c0 :: t0) ++ '/' :: r ++ suf ++ ws2) =
      (c0 :: t0) ++ '/' :: r := by
  subst hrdec
  obtain ⟨h1, h2⟩ := hrl
  have hgit2 : ".git".toList.isSuffixOf ((c0 :: t0) ++ '/' :: (rin ++ [rl])) = false :=
    git_not_suffix (c0 :: t0) (rin ++ [rl]) hr hgit
  unfold preprocess
  dsimp only
  rcases hsuf with hs | hs | hs
  · subst hs
    rw [show ws1 ++ (c0 :: t0) ++ '/' :: (rin ++ [rl]) ++ [] ++ ws2 =
        ws1 ++ (c0 :: ((t0 ++ '/' :: rin) ++ [rl])) ++ ws2 from by simp]
    rw [pyStrip_sandwich ws1 ws2 (t0 ++ '/' :: rin) c0 rl hw1 hw2 hc0 h2]
    rw [show (c0 :: ((t0 ++ '/' :: rin) ++ [rl]) : List Char) =
        ((c0 :: t0) ++ '/' :: rin) ++ [rl] from by simp]
    rw [rstripSlashes_concat_ne _ rl (by simp [h1])]
    rw [show ((c0 :: t0) ++ '/' :: rin) ++ [rl] =
        (c0 :: t0) ++ '/' :: (rin ++ [rl]) from by simp]
    rw [if_neg (show ¬(".git".toList.isSuffixOf
      ((c0 :: t0) ++ '/' :: (rin ++ [rl])) = true) from by rw [hgit2]; simp)]
  · subst hs
    rw [show ws1 ++ (c0 :: t0) ++ '/' :: (rin ++ [rl]) ++ ".git".toList ++ ws2 =
        ws1 ++ (c0 :: ((t0 ++ '/' :: (rin ++ [rl]) ++ ['.', 'g', 'i']) ++ ['t'])) ++ ws2
        from by simp [show (".git".toList : List Char) = ['.', 'g', 'i', 't'] from rfl]]
    rw [pyStrip_sandwich ws1 ws2 _ c0 't' hw1 hw2 hc0 (by decide)]
    rw [show (c0 :: ((t0 ++ '/' :: (rin ++ [rl]) ++ ['.', 'g', 'i']) ++ ['t']) :
        List Char) = ((c0 :: t0) ++ '/' :: (rin ++ [rl]) ++ ['.', 'g', 'i']) ++ ['t']
        from by simp]
    rw [rstripSlashes_concat_ne _ 't' (by decide)]
    rw [show ((c0 :: t0) ++ '/' :: (rin ++ [rl]) ++ ['.', 'g', 'i']) ++ ['t'] =
        ((c0 :: t0) ++ '/' :: (rin ++ [rl])) ++ ".git".toList from by
        simp [show (".git".toList : List Char) = ['.', 'g', 'i', 't'] from rfl]]
    rw [if_pos (isSuffixOf_append_self _ _)]
    rw [take_strip_git]
  · subst hs
    rw [show ws1 ++ (c0 :: t0) ++ '/' :: (rin ++ [rl]) ++ ['/'] ++ ws2 =
        ws1 ++ (c0 :: ((t0 ++ '/' :: (rin ++ [rl])) ++ ['/'])) ++ ws2 from by simp]
    rw [pyStrip_sandwich ws1 ws2 _ c0 '/' hw1 hw2 hc0 (by decide)]
    rw [show (c0 :: ((t0 ++ '/' :: (rin ++ [rl])) ++ ['/']) : List Char) =
        ((c0 :: t0) ++ '/' :: (rin ++ [rl])) ++ ['/'] from by simp]
    rw [rstripSlashes_append_slash]
    rw [show ((c0 :: t0) ++ '/' :: (rin ++ [rl]) : List Char) =
        ((c0 :: t0) ++ '/' :: rin) ++ [rl] from by simp]
    rw [rstripSlashes_concat_ne _ rl (by simp [h1])]
    rw [show ((c0 :: t0) ++ '/' :: rin) ++ [rl] =
        (c0 :: t0) ++ '/' :: (rin ++ [rl]) from by simp]
    rw [if_neg (show ¬(".git".toList.isSuffixOf
      ((c0 :: t0) ++ '/' :: (rin ++ [rl])) = true) from by rw [hgit2]; simp)]

/- ### Claim C1 — positive evaluation of the two matchers -/

lemma takeWhile_two_part (o r : List Char) (hoc : ∀ c ∈ o, c ≠ '/') :
    (o ++ '/' :: r).takeWhile (· != '/') = o := by
  rw [takeWhile_all _ o _ (fun c hc => by simp [hoc c hc])]
  rw [takeWhile_cons_false _ _ _ (by simp)]
  simp

lemma dropWhile_two_part (o r : List Char) (hoc : ∀ c ∈ o, c ≠ '/') :
    (o ++ '/' :: r).dropWhile (· != '/') = '/' :: r := by
  rw [dropWhile_all _ o _ (fun c hc => by simp [hoc c hc])]
  exact dropWhile_cons_false _ _ _ (by simp)

lemma matchOwnerPart_ok (o r : List Char) (ho : o ≠ []) (hr : r ≠ [])
    (hoc : ∀ c ∈ o, c ≠ '/') (hrc : ∀ c ∈ r, c ≠ '/') :
    matchOwnerPart (o ++ '/' :: r) = some (o ++ '/' :: r) := by
  unfold matchOwnerPart
  rw [takeWhile_two_part o r hoc, dropWhile_two_part o r hoc]
  obtain ⟨oc, ot, rfl⟩ := List.exists_cons_of_ne_nil ho
  show (if (r.takeWhile (· != '/')).isEmpty = true then none
    else some ((oc :: ot) ++ '/' :: r.takeWhile (· != '/'))) =
    some ((oc :: ot) ++ '/' :: r)
  rw [takeWhile_id _ r (fun c hc => by simp [hrc c hc])]
  rw [if_neg (by simp [List.isEmpty_iff, hr])]

lemma matchOwnerRepo_ok (o r : List Char) (ho : o ≠ []) (hr : r ≠ [])
    (hoc : ∀ c ∈ o, c ≠ '/') (hrc : ∀ c ∈ r, c ≠ '/') :
    matchOwnerRepo (o ++ '/' :: r) = some (o ++ '/' :: r) := by
  unfold matchOwnerRepo
  rw [takeWhile_two_part o r hoc, dropWhile_two_part o r hoc]
  obtain ⟨oc, ot, rfl⟩ := List.exists_cons_of_ne_nil ho
  show (if r.isEmpty = true then none
    else if (r.any (· == '/')) = true then none
    else some ((oc :: ot) ++ '/' :: r)) = some ((oc :: ot) ++ '/' :: r)
  rw [if_neg (by simp [List.isEmpty_iff, hr])]
  have hany : (r.any (· == '/')) = false := by
    cases hb : r.any (· == '/') with
    | false => rfl
    | true =>
      obtain ⟨x, hx, hx2⟩ := List.any_eq_true.mp hb
      exact absurd (by simpa using hx2) (hrc x hx)
  rw [if_neg (by simp [hany])]

lemma scheme_prefix_false (sch : List Char) (hc : 2 ≤ sch.count '/')
    (o r : List Char) (hoc : '/' ∉ o) (hrc : '/' ∉ r) :
    sch.isPrefixOf (o ++ '/' :: r) = false := by
  by_contra h
  rw [Bool.not_eq_false] at h
  have hsub : List.Sublist sch (o ++ '/' :: r) :=
    (List.isPrefixOf_iff_prefix.mp h).sublist
  have hcount := hsub.count_le '/'
  have h1 : (o ++ '/' :: r).count '/' = 1 := by
    simp [List.count_append, List.count_cons_self,
      List.count_eq_zero.mpr hoc, List.count_eq_zero.mpr hrc]
  omega

lemma ghprefix_false (o r : List Char) (hoc : ∀ c ∈ o, c ≠ '/')
    (hne : o ≠ "github.com".toList) :
    "github.com/".toList.isPrefixOf (o ++ '/' :: r) = false := by
  by_contra h
  rw [Bool.not_eq_false] at h
  obtain ⟨t, ht⟩ := List.isPrefixOf_iff_prefix.mp h
  have h1 : ("github.com/".toList ++ t).takeWhile (· != '/') = "github.com".toList := by
    rw [show ("github.com/".toList ++ t : List Char) =
        "github.com".toList ++ '/' :: t from rfl]
    exact takeWhile_two_part _ _ (by decide)
  rw [ht, takeWhile_two_part o r hoc] at h1
  exact hne h1

lemma afterScheme_no_scheme (u : List Char)
    (h1 : "https://".toList.isPrefixOf u = false)
    (h2 : "http://".toList.isPrefixOf u = false) : afterScheme u = u := by
  unfold afterScheme
  rw [if_neg (show ¬("https://".toList.isPrefixOf u = true) from by rw [h1]; simp)]
  rw [if_neg (show ¬("http://".toList.isPrefixOf u = true) from by rw [h2]; simp)]

lemma matchGithub_bare_none (o r : List Char) (ho : o ≠ [])
    (hoc : ∀ c ∈ o, c ≠ '/') (hrc : ∀ c ∈ r, c ≠ '/') :
    matchGithub (o ++ '/' :: r) = none := by
  have hons : '/' ∉ o := fun h => hoc '/' h rfl
  have hrns : '/' ∉ r := fun h => hrc '/' h rfl
  unfold matchGithub
  dsimp only
  rw [afterScheme_no_scheme _ (scheme_prefix_false _ (by decide) o r hons hrns)
      (scheme_prefix_false _ (by decide) o r hons hrns)]
  by_cases hgh : o = "github.com".toList
  · subst hgh
    rw [show ("github.com".toList : List Char) ++ '/' :: r =
        "github.com/".toList ++ r from rfl]
    rw [if_pos (isPrefixOf_self_append _ _)]
    rw [show ("github.com/".toList ++ r).drop 11 = r from by
      rw [show (11 : Nat) = ("github.com/".toList : List Char).length from rfl,
        List.drop_left]]
    unfold matchOwnerPart
    dsimp only
    rw [takeWhile_id _ r (fun c hc => by simp [hrc c hc]),
      dropWhile_nil_of_all _ r (fun c hc => by simp [hrc c hc])]
    cases r with
    | nil => rfl
    | cons a as => rfl
  · rw [if_neg (show ¬("github.com/".toList.isPrefixOf (o ++ '/' :: r) = true)
      from by rw [ghprefix_false o r hoc hgh]; simp)]

lemma matchGithub_hosted (o r : List Char) (ho : o ≠ []) (hr : r ≠ [])
    (hoc : ∀ c ∈ o, c ≠ '/') (hrc : ∀ c ∈ r, c ≠ '/') :
    matchGithub ("github.com/".toList ++ (o ++ '/' :: r)) = some (o ++ '/' :: r) := by
  unfold matchGithub
  dsimp only
  rw [afterScheme_no_scheme ("github.com/".toList ++ (o ++ '/' :: r)) rfl rfl]
  rw [if_pos (isPrefixOf_self_append _ _)]
  rw [show ("github.com/".toList ++ (o ++ '/' :: r)).drop 11 = o ++ '/' :: r from by
    rw [show (11 : Nat) = ("github.com/".toList : List Char).length from rfl,
      List.drop_left]]
  exact matchOwnerPart_ok o r ho hr hoc hrc

lemma matchGithub_https (o r : List Char) (ho : o ≠ []) (hr : r ≠ [])
    (hoc : ∀ c ∈ o, c ≠ '/') (hrc : ∀ c ∈ r, c ≠ '/') :
    matchGithub ("https://github.com/".toList ++ (o ++ '/' :: r)) =
      some (o ++ '/' :: r) := by
  unfold matchGithub
  dsimp only
  have has : afterScheme ("https://github.com/".toList ++ (o ++ '/' :: r)) =
      "github.com/".toList ++ (o ++ '/' :: r) := by
    unfold afterScheme
    rw [if_pos (show "https://".toList.isPrefixOf
      ("https://github.com/".toList ++ (o ++ '/' :: r)) = true from rfl)]
    rw [show ("https://github.com/".toList ++ (o ++ '/' :: r) : List Char) =
        "https://".toList ++ ("github.com/".toList ++ (o ++ '/' :: r)) from rfl]
    rw [show (8 : Nat) = ("https://".toList : List Char).length from rfl,
      List.drop_left]
  rw [has]
  rw [if_pos (isPrefixOf_self_append _ _)]
  rw [show ("github.com/".toList ++ (o ++ '/' :: r)).drop 11 = o ++ '/' :: r from by
    rw [show (11 : Nat) = ("github.com/".toList : List Char).length from rfl,
      List.drop_left]]
  exact matchOwnerPart_ok o r ho hr hoc hrc

lemma preprocess_eval (ws1 ws2 o r pre suf : List Char)
    (hw1 : ∀ c ∈ ws1, pyIsSpace c = true) (hw2 : ∀ c ∈ ws2, pyIsSpace c = true)
    (ho : o ≠ []) (hr : r ≠ [])
    (hoc : ∀ c ∈ o, c ≠ '/' ∧ pyIsSpace c = false)
    (hrc : ∀ c ∈ r, c ≠ '/' ∧ pyIsSpace c = false)
    (hgit : ".git".toList.isSuffixOf r = false)
    (hpre : pre = [] ∨ pre = "github.com/".toList ∨
      pre = "https://github.com/".toList)
    (hsuf : suf = [] ∨ suf = ".git".toList ∨ suf = ['/']) :
    preprocess (ws1 ++ pre ++ o ++ '/' :: r ++ suf ++ ws2) =
      pre ++ o ++ '/' :: r := by
  obtain ⟨rin, rl, hrdec⟩ : ∃ rin rl, r = rin ++ [rl] := by
    rcases List.eq_nil_or_concat r with h | ⟨rin, rl, h⟩
    · exact absurd h hr
    · exact ⟨rin, rl, by rw [h, List.concat_eq_append]⟩
  have hrl : rl ≠ '/' ∧ pyIsSpace rl = false := hrc rl (by rw [hrdec]; simp)
  rcases hpre with hp | hp | hp <;> subst hp
  · obtain ⟨c0, t0, hdec⟩ := List.exists_cons_of_ne_nil ho
    rw [show ([] : List Char) ++ o ++ '/' :: r = (c0 :: t0) ++ '/' :: r from by
      rw [← hdec]; simp]
    rw [show ws1 ++ ([] : List Char) ++ o ++ '/' :: r ++ suf ++ ws2 =
        ws1 ++ (c0 :: t0) ++ '/' :: r ++ suf ++ ws2 from by rw [← hdec]; simp]
    exact preprocess_sandwich ws1 ws2 t0 r rin suf c0 rl hw1 hw2
      (hoc c0 (by rw [hdec]; simp)).2 hrdec hrl hr hgit hsuf
  · rw [show ("github.com/".toList : List Char) ++ o ++ '/' :: r =
        ('g' :: ("ithub.com/".toList ++ o)) ++ '/' :: r from by simp]
    rw [show ws1 ++ ("github.com/".toList : List Char) ++ o ++ '/' :: r ++ suf ++ ws2 =
        ws1 ++ ('g' :: ("ithub.com/".toList ++ o)) ++ '/' :: r ++ suf ++ ws2 from by
        simp]
    exact preprocess_sandwich ws1 ws2 ("ithub.com/".toList ++ o) r rin suf 'g' rl
      hw1 hw2 (by decide) hrdec hrl hr hgit hsuf
  · rw [show ("https://github.com/".toList : List Char) ++ o ++ '/' :: r =
        ('h' :: ("ttps://github.com/".toList ++ o)) ++ '/' :: r from by simp]
    rw [show ws1 ++ ("https://github.com/".toList : List Char) ++ o ++ '/' :: r ++
        suf ++ ws2 =
        ws1 ++ ('h' :: ("ttps://github.com/".toList ++ o)) ++ '/' :: r ++ suf ++ ws2
        from by simp]
    exact preprocess_sandwich ws1 ws2 ("ttps://github.com/".toList ++ o) r rin suf
      'h' rl hw1 hw2 (by decide) hrdec hrl hr hgit hsuf

/-- Claim C1: `parse_repo_url` maps every accepted reference form —
`https://github.com/o/r`, `github.com/o/r` or bare `o/r`, with optional
surrounding whitespace and an optional trailing `.git` or trailing slash —
to the canonical `o/r`; and every preprocessed input that has neither an
exactly-one-slash two-part shape nor a valid `github.com` host reference
fails with the InvalidReference `ValueError`. -/
theorem C1_parse_repo_url :
    (∀ ws1 ws2 o r pre suf : List Char,
      (∀ c ∈ ws1, pyIsSpace c = true) → (∀ c ∈ ws2, pyIsSpace c = true) →
      o ≠ [] → r ≠ [] →
      (∀ c ∈ o, c ≠ '/' ∧ pyIsSpace c = false) →
      (∀ c ∈ r, c ≠ '/' ∧ pyIsSpace c = false) →
      ".git".toList.isSuffixOf r = false →
      (pre = [] ∨ pre = "github.com/".toList ∨
        pre = "https://github.com/".toList) →
      (suf = [] ∨ suf = ".git".toList ∨ suf = ['/']) →
      parse_repo_url (ws1 ++ pre ++ o ++ '/' :: r ++ suf ++ ws2) =
        .ok (o ++ '/' :: r)) ∧
    (∀ url : List Char, ¬ specTwoPartShape (preprocess url) →
      ¬ specGithubHostRef (preprocess url) →
      ∃ m, parse_repo_url url = .error m) := by
  constructor
  · intro ws1 ws2 o r pre suf hw1 hw2 ho hr hoc hrc hgit hpre hsuf
    have hpp := preprocess_eval ws1 ws2 o r pre suf hw1 hw2 ho hr hoc hrc hgit
      hpre hsuf
    have hoc' : ∀ c ∈ o, c ≠ '/' := fun c hc => (hoc c hc).1
    have hrc' : ∀ c ∈ r, c ≠ '/' := fun c hc => (hrc c hc).1
    rcases hpre with hp | hp | hp <;> subst hp
    · apply parse_ok_of_matchOwnerRepo
      · rw [hpp]
        simpa using matchGithub_bare_none o r ho hoc' hrc'
      · rw [hpp]
        simpa using matchOwnerRepo_ok o r ho hr hoc' hrc'
    · apply parse_ok_of_matchGithub
      rw [hpp]
      have hm := matchGithub_hosted o r ho hr hoc' hrc'
      rw [show ("github.com/".toList : List Char) ++ o ++ '/' :: r =
        "github.com/".toList ++ (o ++ '/' :: r) from by simp]
      exact hm
    · apply parse_ok_of_matchGithub
      rw [hpp]
      have hm := matchGithub_https o r ho hr hoc' hrc'
      rw [show ("https://github.com/".toList : List Char) ++ o ++ '/' :: r =
        "https://github.com/".toList ++ (o ++ '/' :: r) from by simp]
      exact hm
  · intro url h2 hg
    cases hmg : matchGithub (preprocess url) with
    | some v => exact absurd (matchGithub_some_shape _ _ hmg) hg
    | none =>
      cases hmo : matchOwnerRepo (preprocess url) with
      | some v => exact absurd (matchOwnerRepo_some_shape _ _ hmo) h2
      | none => exact parse_error_of_none url hmg hmo

theorem C1_parse_repo_url_witness :
    parse_repo_url ([' '] ++ "https://github.com/".toList ++ "octo".toList ++
      '/' :: "Hello".toList ++ ".git".toList ++ [' ']) =
      .ok ("octo".toList ++ '/' :: "Hello".toList) ∧
    (∃ m, parse_repo_url "nonsense".toList = .error m) := by
  constructor
  · exact C1_parse_repo_url.1 [' '] [' '] "octo".toList "Hello".toList
      "https://github.com/".toList ".git".toList (by decide) (by decide)
      (by decide) (by decide) (by decide) (by decide) (by decide)
      (Or.inr (Or.inr rfl)) (Or.inr (Or.inl rfl))
  · apply C1_parse_repo_url.2 "nonsense".toList
    · rintro ⟨a, b, heq, -, -, -, -⟩
      have hmem : '/' ∈ ("nonsense".toList : List Char) := by
        have hpp : preprocess "nonsense".toList = "nonsense".toList := rfl
        rw [← hpp, heq]
        exact List.mem_append_right a (List.mem_cons_self _ _)
      exact absurd hmem (by decide)
    · rintro ⟨scheme, rest, hsch, heq, -⟩
      have hmem : '/' ∈ ("nonsense".toList : List Char) := by
        have hpp : preprocess "nonsense".toList = "nonsense".toList := rfl
        rw [← hpp, heq]
        exact List.mem_append_left _ (List.mem_append_right _ (by decide))
      exact absurd hmem (by decide)

end ReadmeGen
